import Mathlib

/-!
Verification of the zero-jotai adapter layer.

This file gives a shallow embedding of the adapter's three source files:
the ChangeListenerFactory class, the materialized-view cache with its
cleanup function, the memoized zeroQueryAtom, and the useZeroQueryAtom
hook (its effect body and the React effect contract it relies on).

Conventions of the embedding:
  - JavaScript Map objects become association lists that preserve
    insertion order; Map.set updates in place (keeping the position) or
    appends, Map.delete removes, iteration is list order.
  - Callback invocation is recorded as an emitted event rather than a
    function call, so that counting and ordering of deliveries is
    observable; each event records the data the callback received and,
    for the consolidated row callbacks, the debounce-map entry that
    produced it (both are in scope at the call site in the source).
  - The wrapped library's applyChange is external code, so the row
    state of a view is an abstract type D transformed by an arbitrary
    function applyFn passed as a parameter.
  - A JavaScript exception becomes an Option JsError result; a thrown
    value that is an instance of Error has isError = true.
  - lodash debounce with leading := false, trailing := true groups the
    calls made before the timer fires into one window; a window is a
    list of pushed changes followed by one flush (handleConsolidated).
-/

/-- Result status of a query, the type field of QueryResultDetails. -/
inductive StatusM where
  | unknown
  | complete
deriving DecidableEq, Repr

/-- The three row-change operations the adapter consolidates
(type ChangeOperation in the source). -/
inductive ChangeOp where
  | add
  | remove
  | edit
deriving DecidableEq, Repr

/-- The change types delivered to Output.push: the three row operations
plus child changes. -/
inductive CType where
  | add
  | remove
  | edit
  | child
deriving DecidableEq, Repr

/-- The row operation of a change type, none for child changes; push
returns early exactly when this is none. -/
def ctypeToOp : CType → Option ChangeOp
  | CType.add => some ChangeOp.add
  | CType.remove => some ChangeOp.remove
  | CType.edit => some ChangeOp.edit
  | CType.child => none

/-- The string name of a change operation, as it appears in the
debounce key. -/
def opName : ChangeOp → String
  | ChangeOp.add => "add"
  | ChangeOp.remove => "remove"
  | ChangeOp.edit => "edit"

/-- The three row-callback slots of a subscription. -/
inductive FnKey where
  | onAdd
  | onRemove
  | onUpdate
deriving DecidableEq, Repr

/-- Map from operation name to callback slot (the switch in
typeToFunctionKey); none on any other string, in which case the
handler finds no callback and makes no call. -/
def typeToFunctionKey : String → Option FnKey
  | "add" => some FnKey.onAdd
  | "remove" => some FnKey.onRemove
  | "edit" => some FnKey.onUpdate
  | _ => none

/-- A node of the incremental view: its row payload, the resolved
row.id or row.ID when one is truthy, and JSON.stringify of the row as
the fallback identifier. -/
structure NodeM (V : Type) where
  row : V
  idStr : Option String
  jsonRow : String
deriving DecidableEq, Repr

/-- A change pushed to the view. -/
structure ChangeM (V : Type) where
  type : CType
  node : NodeM V
deriving DecidableEq, Repr

/-- The method getNodeId: row.id or row.ID when truthy, stringified,
else JSON.stringify(row). -/
def getNodeId {V : Type} (n : NodeM V) : String :=
  n.idStr.getD n.jsonRow

/-- The method createDebounceKey: operation name and node id joined
with a dash. -/
def createDebounceKey (op : ChangeOp) (nodeId : String) : String :=
  opName op ++ "-" ++ nodeId

/-- The method decriptDebounceKey: debounceKey.split("-")[0], i.e. the
characters before the first dash (the whole string when there is
none). -/
def decriptDebounceKey (debounceKey : String) : String :=
  String.mk (debounceKey.data.takeWhile (fun c => c ≠ '-'))

/-! Association lists modelling JavaScript Map. -/

/-- Map.set: update the value in place when the key is present
(keeping its position), append otherwise. -/
def mapSet {α : Type} : List (String × α) → String → α → List (String × α)
  | [], k, v => [(k, v)]
  | (k', v') :: rest, k, v =>
      if k' = k then (k, v) :: rest else (k', v') :: mapSet rest k v

/-- Map.get as an Option. -/
def mapGet {α : Type} (m : List (String × α)) (k : String) : Option α :=
  (m.find? (fun p => p.1 = k)).map (fun p => p.2)

/-- Map.delete. -/
def mapDelete {α : Type} (m : List (String × α)) (k : String) : List (String × α) :=
  m.filter (fun p => p.1 ≠ k)

theorem mapGet_nil {α : Type} (k : String) : mapGet ([] : List (String × α)) k = none := by
  simp [mapGet, List.find?]

theorem mapGet_cons {α : Type} (a : String) (b : α) (rest : List (String × α)) (k : String) :
    mapGet ((a, b) :: rest) k = if a = k then some b else mapGet rest k := by
  by_cases h : a = k <;> simp [mapGet, List.find?, h]

theorem mapGet_mapSet {α : Type} (m : List (String × α)) (k k' : String) (v : α) :
    mapGet (mapSet m k v) k' = if k' = k then some v else mapGet m k' := by
  induction m with
  | nil =>
      rcases eq_or_ne k' k with h | h
      · subst h; simp [mapSet, mapGet_cons]
      · simp [mapSet, mapGet_cons, mapGet_nil, h, Ne.symm h]
  | cons p rest ih =>
      obtain ⟨pk, pv⟩ := p
      simp only [mapSet]
      rcases eq_or_ne pk k with hpk | hpk
      · subst hpk
        rcases eq_or_ne pk k' with h | h
        · subst h; simp [mapGet_cons]
        · simp [mapGet_cons, h, Ne.symm h]
      · rw [if_neg hpk]
        rw [mapGet_cons, mapGet_cons, ih]
        rcases eq_or_ne pk k' with h | h
        · subst h
          simp [hpk]
        · rcases eq_or_ne k' k with h2 | h2 <;> simp [h, h2, hpk]

theorem mapGet_mapDelete {α : Type} (m : List (String × α)) (k k' : String) :
    mapGet (mapDelete m k) k' = if k' = k then none else mapGet m k' := by
  induction m with
  | nil =>
      rcases eq_or_ne k' k with h | h <;> simp [mapDelete, mapGet_nil, h]
  | cons p rest ih =>
      obtain ⟨pk, pv⟩ := p
      have hstep : mapDelete ((pk, pv) :: rest) k
          = if pk = k then mapDelete rest k else (pk, pv) :: mapDelete rest k := by
        rcases eq_or_ne pk k with h | h <;> simp [mapDelete, List.filter, h]
      rw [hstep]
      rcases eq_or_ne pk k with h | h
      · subst h
        rw [if_pos rfl, ih, mapGet_cons]
        rcases eq_or_ne k' pk with h2 | h2
        · simp [h2]
        · simp [h2, Ne.symm h2]
      · rw [if_neg h]
        simp only [mapGet_cons, ih]
        rcases eq_or_ne pk k' with h2 | h2
        · subst h2
          simp [h]
        · rcases eq_or_ne k' k with h3 | h3 <;> simp [h, h2, h3]

/-! Substring containment, the semantics of String.prototype.includes. -/

/-- Whether the second list is an initial run of the first. -/
def charsStart : List Char → List Char → Bool
  | _, [] => true
  | [], _ :: _ => false
  | c :: cs, p :: ps => c = p && charsStart cs ps

/-- Whether the second list occurs contiguously inside the first. -/
def charsHave : List Char → List Char → Bool
  | l, p =>
    charsStart l p ||
      match l with
      | [] => false
      | _ :: cs => charsHave cs p

/-- JavaScript's s.includes(pat): pat occurs as a contiguous substring
of s (case-sensitive). -/
def strIncludes (s pat : String) : Bool :=
  charsHave s.data pat.data

/-! The subscription record and the factory state. -/

/-- A subscription record (ChangeFactorySubscriptions): its unique key
and which of the four optional callbacks are present. The callbacks
themselves are modelled by the events they would receive. -/
structure SubsM where
  key : String
  hasOnData : Bool
  hasOnAdd : Bool
  hasOnRemove : Bool
  hasOnUpdate : Bool
deriving DecidableEq, Repr

/-- Whether a subscription carries the callback in the given slot. -/
def subsHas (s : SubsM) : FnKey → Bool
  | FnKey.onAdd => s.hasOnAdd
  | FnKey.onRemove => s.hasOnRemove
  | FnKey.onUpdate => s.hasOnUpdate

/-- A recorded callback invocation. A data event is one onData call
with the snapshot and status it received; a row event is one
onAdd/onRemove/onUpdate call, recording the debounce-map entry
(dkey) that produced it, the subscription it went to, the slot, and
the row payload. -/
inductive EventM (D V : Type) where
  | data (subKey : String) (snapshot : D) (status : StatusM)
  | row (dkey : String) (subKey : String) (fn : FnKey) (payload : V)
deriving DecidableEq, Repr

/-- Whether an event is a row-callback event for the given debounce
key. -/
def evIsRowFor {D V : Type} (k : String) : EventM D V → Bool
  | EventM.row dk _ _ _ => dk = k
  | EventM.data _ _ _ => false

/-- Whether an event is a row-callback event at all. -/
def evIsRow {D V : Type} : EventM D V → Bool
  | EventM.row _ _ _ _ => true
  | EventM.data _ _ _ => false

/-- The mutable state of a ChangeListenerFactory instance: the root
entry of the view state (abstract, transformed by the external
applyChange), the result status, the consolidated-callback map and the
subscription map. -/
structure ChangeListenerFactory (D V : Type) where
  state : D
  status : StatusM
  consolidatedCallbacks : List (String × V)
  subscriptions : List (String × SubsM)
deriving DecidableEq, Repr

/-- The private method onData: one call per registered subscription
that has an onData callback, in map order, each receiving the current
data and status. -/
def onDataEvents {D V : Type} (f : ChangeListenerFactory D V) : List (EventM D V) :=
  f.subscriptions.filterMap
    (fun p => if p.2.hasOnData then some (EventM.data p.2.key f.state f.status) else none)

/-- The private method applyChange: run the external applyChange on
the state, then synchronously deliver onData to every subscriber. -/
def applyChangeM {D V : Type} (applyFn : D → ChangeM V → D)
    (f : ChangeListenerFactory D V) (c : ChangeM V) :
    ChangeListenerFactory D V × List (EventM D V) :=
  let f' := { f with state := applyFn f.state c }
  (f', onDataEvents f')

/-- The private method consolidateChanges: record the latest data for
the (operation, node id) debounce key and (re)arm the shared debounce
timer. -/
def consolidateChanges {D V : Type} (f : ChangeListenerFactory D V)
    (changeType : ChangeOp) (nodeId : String) (data : V) : ChangeListenerFactory D V :=
  { f with
    consolidatedCallbacks :=
      mapSet f.consolidatedCallbacks (createDebounceKey changeType nodeId) data }

/-- The method push: apply the change (which delivers onData
synchronously), then return early for child changes, otherwise
consolidate the row callback for the debounced flush. The returned
events are exactly the callback calls made synchronously inside
push. -/
def push {D V : Type} (applyFn : D → ChangeM V → D)
    (f : ChangeListenerFactory D V) (c : ChangeM V) :
    ChangeListenerFactory D V × List (EventM D V) :=
  let (f1, evs) := applyChangeM applyFn f c
  let nodeId := getNodeId c.node
  match ctypeToOp c.type with
  | none => (f1, evs)
  | some op => (consolidateChanges f1 op nodeId c.node.row, evs)

/-- The private method handleConsolidated, the debounced flush: walk
the consolidated map in insertion order, decode each key's operation,
and call the matching callback of every subscription that has one;
then clear the map. -/
def handleConsolidated {D V : Type} (f : ChangeListenerFactory D V) :
    ChangeListenerFactory D V × List (EventM D V) :=
  let evs := f.consolidatedCallbacks.flatMap
    (fun e =>
      match typeToFunctionKey (decriptDebounceKey e.1) with
      | none => []
      | some fk =>
          f.subscriptions.filterMap
            (fun p => if subsHas p.2 fk then some (EventM.row e.1 p.2.key fk e.2) else none))
  ({ f with consolidatedCallbacks := [] }, evs)

/-- The method hasSubscribers. -/
def hasSubscribers {D V : Type} (f : ChangeListenerFactory D V) : Bool :=
  !f.subscriptions.isEmpty

/-- The method addSubscriptions. -/
def addSubscriptions {D V : Type} (f : ChangeListenerFactory D V) (opts : SubsM) :
    ChangeListenerFactory D V :=
  { f with subscriptions := mapSet f.subscriptions opts.key opts }

/-- The method removeSubscriptions. -/
def removeSubscriptions {D V : Type} (f : ChangeListenerFactory D V) (key : String) :
    ChangeListenerFactory D V :=
  { f with subscriptions := mapDelete f.subscriptions key }

/-! Properties of the debounce key. -/

theorem stringMk_data (s : String) : String.mk s.data = s := by
  cases s
  rfl

theorem takeWhile_until_dash (cs rest : List Char) (h : ∀ c ∈ cs, c ≠ '-') :
    (cs ++ '-' :: rest).takeWhile (fun c => c ≠ '-') = cs := by
  induction cs with
  | nil => simp [List.takeWhile]
  | cons c cs ih =>
      have hc : c ≠ '-' := h c (by simp)
      have hrest : ∀ d ∈ cs, d ≠ '-' := fun d hd => h d (by simp [hd])
      have ih2 := ih hrest
      simp only [List.cons_append, List.takeWhile] at ih2 ⊢
      simp [hc] at ih2 ⊢
      exact ih2

theorem dataOf_createDebounceKey (op : ChangeOp) (nodeId : String) :
    (createDebounceKey op nodeId).data = (opName op).data ++ '-' :: nodeId.data := by
  simp [createDebounceKey, String.data_append]

theorem opName_no_dash (op : ChangeOp) : ∀ c ∈ (opName op).data, c ≠ '-' := by
  cases op <;> decide

/-- Decoding a created debounce key recovers the operation name: the
split at the first dash stops exactly at the separator, because no
operation name contains a dash. -/
theorem decript_createDebounceKey (op : ChangeOp) (nodeId : String) :
    decriptDebounceKey (createDebounceKey op nodeId) = opName op := by
  rw [decriptDebounceKey, dataOf_createDebounceKey,
    takeWhile_until_dash _ _ (opName_no_dash op), stringMk_data]

/-- The callback slot matching a change operation. -/
def opFnKey : ChangeOp → FnKey
  | ChangeOp.add => FnKey.onAdd
  | ChangeOp.remove => FnKey.onRemove
  | ChangeOp.edit => FnKey.onUpdate

theorem typeToFunctionKey_opName (op : ChangeOp) :
    typeToFunctionKey (opName op) = some (opFnKey op) := by
  cases op <;> rfl

theorem createDebounceKey_inj (o1 o2 : ChangeOp) (n1 n2 : String)
    (h : createDebounceKey o1 n1 = createDebounceKey o2 n2) : o1 = o2 ∧ n1 = n2 := by
  have ho : o1 = o2 := by
    have h1 := congrArg decriptDebounceKey h
    rw [decript_createDebounceKey, decript_createDebounceKey] at h1
    cases o1 <;> cases o2 <;> first
      | rfl
      | exact absurd h1 (by decide)
  subst ho
  refine ⟨rfl, ?_⟩
  have hd := congrArg String.data h
  rw [dataOf_createDebounceKey, dataOf_createDebounceKey] at hd
  have h2 := List.append_cancel_left hd
  injection h2 with _ h3
  have h4 : String.mk n1.data = String.mk n2.data := by rw [h3]
  rwa [stringMk_data, stringMk_data] at h4

/-! The constructor and the jotai atom read. -/

/-- Whether the queryComplete argument is the literal true or a
promise of true. -/
inductive QCompleteM where
  | literal
  | promise
deriving DecidableEq, Repr

/-- The format of the view: singular or list shaped. Relationship
formats live inside the external applyChange and are not modelled. -/
structure FormatM where
  singular : Bool
deriving DecidableEq, Repr

/-- The ChangeListenerFactory constructor: set the initial state (the
root entry is undefined for singular format and the empty list
otherwise; the status is complete exactly when queryComplete is the
literal true), register the initial subscription, then apply an add
change for every node of the initial input.fetch. Each of those
applications delivers onData synchronously, so the constructor also
returns the events it emitted. The promise branch resolves after
construction and is outside this model. -/
def ctor {V : Type} (applyFn : Option (List V) → ChangeM V → Option (List V))
    (fmt : FormatM) (queryComplete : QCompleteM) (subscriptions : SubsM)
    (fetched : List (NodeM V)) :
    ChangeListenerFactory (Option (List V)) V × List (EventM (Option (List V)) V) :=
  let f0 : ChangeListenerFactory (Option (List V)) V :=
    { state := if fmt.singular then none else some []
      status := if queryComplete = QCompleteM.literal then StatusM.complete else StatusM.unknown
      consolidatedCallbacks := []
      subscriptions := mapSet [] subscriptions.key subscriptions }
  fetched.foldl
    (fun acc node =>
      let r := applyChangeM applyFn acc.1 { type := CType.add, node := node }
      (r.1, acc.2 ++ r.2))
    (f0, [])

/-- The read function of the stateAtom in zeroQueryAtom: before the
materialized view exists the value is the empty list with unknown
status; afterwards it is a structured clone of the view's data
(defaulted to the empty list) together with its status. -/
def stateAtomRead {V : Type}
    (view : Option (ChangeListenerFactory (Option (List V)) V)) : List V × StatusM :=
  match view with
  | none => ([], StatusM.unknown)
  | some v => (v.state.getD [], v.status)

/-! Teardown. -/

/-- A thrown JavaScript value: whether it is an instance of Error, and
its message. -/
structure JsError where
  isError : Bool
  message : String
deriving DecidableEq, Repr

/-- The method destroy: clear the consolidated map and the
subscriptions, then run the wrapped library's teardown (the onDestroy
passed by materialize). When the teardown throws an Error whose
message includes the string "Connection not found" the error is
swallowed and destroy returns normally, otherwise the thrown value is
re-raised. The teardown's outcome is external and is passed in as an
Option JsError (none means it returned normally). -/
def destroy {D V : Type} (f : ChangeListenerFactory D V) (onDestroyErr : Option JsError) :
    ChangeListenerFactory D V × Option JsError :=
  let f' := { f with consolidatedCallbacks := ([] : List (String × V)),
                     subscriptions := [] }
  match onDestroyErr with
  | none => (f', none)
  | some e =>
      if e.isError && strIncludes e.message "Connection not found"
      then (f', none)
      else (f', some e)

/-! The materialized-view cache (viewsMaterialized) and its
operations. -/

/-- The function getClientQueryKey: the query hash joined with the
client ID; the hash and the client ID are produced by the wrapped
library. -/
def getClientQueryKey (queryHash clientID : String) : String :=
  queryHash ++ "-" ++ clientID

/-- The function getMaterializedFactoryView: when a view for the query
key is already cached, register the caller's subscriptions on it under
their key and return it; otherwise materialize a new view (running the
constructor, whose query, format, completion flag and initial fetch
results come from the wrapped library and are passed here as
arguments) and cache it. Returns the view, the updated cache, and the
events emitted during construction. -/
def getMaterializedFactoryView {V : Type}
    (applyFn : Option (List V) → ChangeM V → Option (List V))
    (cache : List (String × ChangeListenerFactory (Option (List V)) V))
    (queryKey : String) (subscriptions : SubsM)
    (fmt : FormatM) (qc : QCompleteM) (fetched : List (NodeM V)) :
    ChangeListenerFactory (Option (List V)) V
      × List (String × ChangeListenerFactory (Option (List V)) V)
      × List (EventM (Option (List V)) V) :=
  match mapGet cache queryKey with
  | some view =>
      let v' := addSubscriptions view subscriptions
      (v', mapSet cache queryKey v', [])
  | none =>
      let r := ctor applyFn fmt qc subscriptions fetched
      (r.1, mapSet cache queryKey r.1, r.2)

/-- The function cleanupMaterializedFactoryView: missing view is a
no-op; otherwise remove the subscription key, keep the view when
subscribers remain, and destroy it and delete it from the cache when
none do. Returns the cache, whether destroy was called, and the error
destroy re-raised if any (in that case the exception aborts cleanup
before the cache deletion, so the destroyed view stays cached). -/
def cleanupMaterializedFactoryView {V : Type}
    (cache : List (String × ChangeListenerFactory (Option (List V)) V))
    (queryKey subscriptionKey : String) (onDestroyErr : Option JsError) :
    List (String × ChangeListenerFactory (Option (List V)) V) × Bool × Option JsError :=
  match mapGet cache queryKey with
  | none => (cache, false, none)
  | some view =>
      let v' := removeSubscriptions view subscriptionKey
      if hasSubscribers v' then (mapSet cache queryKey v', false, none)
      else
        match destroy v' onDestroyErr with
        | (_, none) => (mapDelete cache queryKey, true, none)
        | (vd, some e) => (mapSet cache queryKey vd, true, some e)

/-! The memoized zeroQueryAtom and the hook. -/

/-- The record zeroQueryAtom returns: the state atom (identified by
the order it was created in), the query key, and the cleanup closure,
which captures the subscription key of the call that produced it. -/
structure ZeroQueryAtomResult where
  atomId : Nat
  queryKey : String
  cleanupSubKey : String
deriving DecidableEq, Repr

/-- The module-level mutable state the adapter lives in: the
materialized-view cache, the lodash memoize cache of zeroQueryAtom
(keyed by getClientQueryKey, never evicted), and a counter giving
fresh atom identities. -/
structure AdapterState (V : Type) where
  viewsMaterialized : List (String × ChangeListenerFactory (Option (List V)) V)
  memoCache : List (String × ZeroQueryAtomResult)
  nextAtomId : Nat
deriving DecidableEq, Repr

/-- The empty initial adapter state. -/
def emptyAdapterState (V : Type) : AdapterState V :=
  { viewsMaterialized := [], memoCache := [], nextAtomId := 0 }

/-- The memoized zeroQueryAtom: lodash memoize resolves the cache key
to getClientQueryKey(query); on a hit the whole body is skipped and
the cached result returned, so neither the atom nor any subscription
registration is re-run. On a miss the body creates the state atom,
wraps the caller's subscriptions with an onData that writes the atom
(so the registered subscription always has onData), materializes or
reuses the view through getMaterializedFactoryView, and caches the
result record. -/
def zeroQueryAtom {V : Type}
    (applyFn : Option (List V) → ChangeM V → Option (List V))
    (st : AdapterState V) (queryKey : String) (subscriptions : SubsM)
    (fmt : FormatM) (qc : QCompleteM) (fetched : List (NodeM V)) :
    ZeroQueryAtomResult × AdapterState V :=
  match mapGet st.memoCache queryKey with
  | some r => (r, st)
  | none =>
      let subsWithOnData : SubsM := { subscriptions with hasOnData := true }
      let g := getMaterializedFactoryView applyFn st.viewsMaterialized
        queryKey subsWithOnData fmt qc fetched
      let r : ZeroQueryAtomResult :=
        { atomId := st.nextAtomId, queryKey := queryKey, cleanupSubKey := subscriptions.key }
      (r, { viewsMaterialized := g.2.1,
            memoCache := mapSet st.memoCache queryKey r,
            nextAtomId := st.nextAtomId + 1 })

/-- The cleanup closure returned by zeroQueryAtom: it takes a query
key and removes the captured subscription key from that view,
destroying the view if it was the last subscriber. -/
def zeroQueryAtomCleanup {V : Type} (r : ZeroQueryAtomResult) (queryKey : String)
    (st : AdapterState V) (onDestroyErr : Option JsError) :
    AdapterState V × Bool × Option JsError :=
  let c := cleanupMaterializedFactoryView st.viewsMaterialized queryKey
    r.cleanupSubKey onDestroyErr
  ({ st with viewsMaterialized := c.1 }, c.2.1, c.2.2)

/-- The effect body of useZeroQueryAtom: when the previous query key
(held in a ref initialized to the first render's key) differs from the
current one, call the cleanup closure with the previous key and record
the current key in the ref. The returned pair is the new ref value and
the adapter state. -/
def useZeroEffectBody {V : Type} (r : ZeroQueryAtomResult)
    (prevKeyRef queryKey : String) (st : AdapterState V) : String × AdapterState V :=
  if prevKeyRef ≠ queryKey then
    (queryKey, (zeroQueryAtomCleanup r prevKeyRef st none).1)
  else
    (prevKeyRef, st)

/-- The destructor the effect of useZeroQueryAtom returns to React:
the effect body ends without returning a function, so there is none. -/
def useZeroEffectDestructor (V : Type) : Option (AdapterState V → AdapterState V) :=
  none

/-- Modelled React contract: on unmount, React runs the destructor
returned by the component's last effect run, if one was returned, and
nothing else. For useZeroQueryAtom there is none, so the adapter state
is untouched by an unmount. -/
def unmountComponent {V : Type} (st : AdapterState V) : AdapterState V :=
  match useZeroEffectDestructor V with
  | none => st
  | some f => f st

/-! A small operation language over the view cache, to state invariants
of arbitrary interleavings of view acquisition and cleanup. -/

/-- One interaction with the view cache: acquire a view for a query
key (getMaterializedFactoryView, with the materialization inputs the
wrapped library would supply) or run cleanup for a (query key,
subscription key) pair with a teardown that returns normally. -/
inductive AdapterOp (V : Type) where
  | acquire (queryKey : String) (subs : SubsM)
      (fmt : FormatM) (qc : QCompleteM) (fetched : List (NodeM V))
  | cleanup (queryKey : String) (subKey : String)

/-- Run one cache operation. -/
def stepAdapter {V : Type} (applyFn : Option (List V) → ChangeM V → Option (List V))
    (cache : List (String × ChangeListenerFactory (Option (List V)) V))
    (op : AdapterOp V) : List (String × ChangeListenerFactory (Option (List V)) V) :=
  match op with
  | AdapterOp.acquire qk subs fmt qc fetched =>
      (getMaterializedFactoryView applyFn cache qk subs fmt qc fetched).2.1
  | AdapterOp.cleanup qk sk =>
      (cleanupMaterializedFactoryView cache qk sk none).1

/-- Run a sequence of cache operations from the empty cache. -/
def runAdapter {V : Type} (applyFn : Option (List V) → ChangeM V → Option (List V))
    (ops : List (AdapterOp V)) : List (String × ChangeListenerFactory (Option (List V)) V) :=
  ops.foldl (stepAdapter applyFn) []

/-! Windows of pushed changes and the debounced flush. -/

/-- Process one debounce window: the factory after a list of pushes
(the flush then runs once, when the trailing timer fires). -/
def pushWindow {D V : Type} (applyFn : D → ChangeM V → D)
    (f : ChangeListenerFactory D V) (w : List (ChangeM V)) : ChangeListenerFactory D V :=
  w.foldl (fun acc c => (push applyFn acc c).1) f

/-- The debounce-map writes a window performs: one (debounce key, row)
pair per non-child change, in order. -/
def windowWrites {V : Type} (w : List (ChangeM V)) : List (String × V) :=
  w.filterMap
    (fun c => (ctypeToOp c.type).map
      (fun op => (createDebounceKey op (getNodeId c.node), c.node.row)))

/-- The value of the last write to a key in a list of writes. -/
def lastVal {α : Type} (ps : List (String × α)) (k : String) : Option α :=
  (ps.reverse.find? (fun p => p.1 = k)).map (fun p => p.2)

/-- The calls the flush makes for one consolidated-map entry. -/
def consolidatedEntryCalls {D V : Type} (subs : List (String × SubsM)) (e : String × V) :
    List (EventM D V) :=
  match typeToFunctionKey (decriptDebounceKey e.1) with
  | none => []
  | some fk =>
      subs.filterMap
        (fun p => if subsHas p.2 fk then some (EventM.row e.1 p.2.key fk e.2) else none)

theorem handleConsolidated_eq {D V : Type} (f : ChangeListenerFactory D V) :
    handleConsolidated f
      = ({ f with consolidatedCallbacks := [] },
          f.consolidatedCallbacks.flatMap (consolidatedEntryCalls f.subscriptions)) := rfl

theorem push_fst_consolidated {D V : Type} (applyFn : D → ChangeM V → D)
    (f : ChangeListenerFactory D V) (c : ChangeM V) :
    (push applyFn f c).1.consolidatedCallbacks
      = match ctypeToOp c.type with
        | none => f.consolidatedCallbacks
        | some op =>
            mapSet f.consolidatedCallbacks (createDebounceKey op (getNodeId c.node)) c.node.row := by
  cases h : ctypeToOp c.type <;> simp [push, applyChangeM, consolidateChanges, h]

theorem push_fst_subscriptions {D V : Type} (applyFn : D → ChangeM V → D)
    (f : ChangeListenerFactory D V) (c : ChangeM V) :
    (push applyFn f c).1.subscriptions = f.subscriptions := by
  cases h : ctypeToOp c.type <;> simp [push, applyChangeM, consolidateChanges, h]

theorem pushWindow_subscriptions {D V : Type} (applyFn : D → ChangeM V → D)
    (f : ChangeListenerFactory D V) (w : List (ChangeM V)) :
    (pushWindow applyFn f w).subscriptions = f.subscriptions := by
  induction w generalizing f with
  | nil => rfl
  | cons c w ih =>
      simp only [pushWindow, List.foldl_cons] at ih ⊢
      rw [ih, push_fst_subscriptions]

theorem pushWindow_consolidated {D V : Type} (applyFn : D → ChangeM V → D)
    (f : ChangeListenerFactory D V) (w : List (ChangeM V)) :
    (pushWindow applyFn f w).consolidatedCallbacks
      = (windowWrites w).foldl (fun m p => mapSet m p.1 p.2) f.consolidatedCallbacks := by
  induction w generalizing f with
  | nil => rfl
  | cons c w ih =>
      simp only [pushWindow, List.foldl_cons, windowWrites, List.filterMap_cons] at ih ⊢
      cases h : ctypeToOp c.type with
      | none =>
          simp only [h, Option.map_none']
          rw [ih]
          have := push_fst_consolidated applyFn f c
          rw [h] at this
          rw [this]
      | some op =>
          simp only [h, Option.map_some']
          rw [ih]
          have := push_fst_consolidated applyFn f c
          rw [h] at this
          rw [this]
          rfl

theorem lastVal_nil {α : Type} (k : String) : lastVal ([] : List (String × α)) k = none := rfl

theorem lastVal_cons {α : Type} (p : String × α) (ps : List (String × α)) (k : String) :
    lastVal (p :: ps) k
      = (lastVal ps k).or (if p.1 = k then some p.2 else none) := by
  simp only [lastVal, List.reverse_cons, List.find?_append]
  cases h : List.find? (fun q => q.1 = k) ps.reverse with
  | none =>
      simp only [h, Option.none_or]
      rcases eq_or_ne p.1 k with h2 | h2 <;> simp [List.find?, h2]
  | some q =>
      simp [h]

theorem mapGet_foldl_mapSet {α : Type} (ps : List (String × α)) (m0 : List (String × α))
    (k : String) :
    mapGet (ps.foldl (fun m p => mapSet m p.1 p.2) m0) k
      = (lastVal ps k).or (mapGet m0 k) := by
  induction ps generalizing m0 with
  | nil => simp [lastVal_nil]
  | cons p ps ih =>
      rw [List.foldl_cons, ih, lastVal_cons, mapGet_mapSet, Option.or_assoc]
      rcases eq_or_ne k p.1 with h | h
      · subst h
        simp
      · have h2 : p.1 ≠ k := Ne.symm h
        simp [h, h2]

/-! Keys of an association list; mapSet keeps them without duplicates. -/

/-- The list of keys of an association list. -/
def keysOf {α : Type} (m : List (String × α)) : List String :=
  m.map Prod.fst

theorem mem_keysOf_mapSet {α : Type} (m : List (String × α)) (k x : String) (v : α) :
    x ∈ keysOf (mapSet m k v) ↔ x ∈ keysOf m ∨ x = k := by
  induction m with
  | nil => simp [mapSet, keysOf]
  | cons p rest ih =>
      obtain ⟨pk, pv⟩ := p
      rcases eq_or_ne pk k with h | h
      · subst h
        simp [mapSet, keysOf]
        tauto
      · simp only [mapSet, if_neg h, keysOf, List.map_cons, List.mem_cons]
        simp only [keysOf] at ih
        rw [ih]
        tauto

theorem keysOf_mapSet_nodup {α : Type} (m : List (String × α)) (k : String) (v : α)
    (h : (keysOf m).Nodup) : (keysOf (mapSet m k v)).Nodup := by
  induction m with
  | nil => simp [mapSet, keysOf]
  | cons p rest ih =>
      obtain ⟨pk, pv⟩ := p
      simp only [keysOf, List.map_cons, List.nodup_cons] at h
      rcases eq_or_ne pk k with he | he
      · subst he
        have hstep : mapSet ((pk, pv) :: rest) pk v = (pk, v) :: rest := by
          simp [mapSet]
        rw [hstep]
        simp only [keysOf, List.map_cons, List.nodup_cons]
        exact h
      · have hstep : mapSet ((pk, pv) :: rest) k v = (pk, pv) :: mapSet rest k v := by
          simp [mapSet, he]
        rw [hstep]
        simp only [keysOf, List.map_cons, List.nodup_cons]
        constructor
        · intro hmem
          have hmem2 : pk ∈ keysOf (mapSet rest k v) := hmem
          rw [mem_keysOf_mapSet] at hmem2
          rcases hmem2 with hmem2 | hmem2
          · exact h.1 hmem2
          · exact he hmem2
        · have := ih h.2
          simpa [keysOf] using this

theorem keysOf_foldl_mapSet_nodup {α : Type} (ps : List (String × α))
    (m0 : List (String × α)) (h : (keysOf m0).Nodup) :
    (keysOf (ps.foldl (fun m p => mapSet m p.1 p.2) m0)).Nodup := by
  induction ps generalizing m0 with
  | nil => exact h
  | cons p ps ih => exact ih _ (keysOf_mapSet_nodup _ _ _ h)

/-! Filtering the flush's calls down to one debounce key. -/

theorem consolidatedEntryCalls_dkey {D V : Type} (subs : List (String × SubsM))
    (e : String × V) (ev : EventM D V) (hev : ev ∈ consolidatedEntryCalls subs e) (k : String) :
    evIsRowFor k ev = (e.1 = k : Bool) := by
  unfold consolidatedEntryCalls at hev
  cases hfk : typeToFunctionKey (decriptDebounceKey e.1) with
  | none => rw [hfk] at hev; simp at hev
  | some fk =>
      rw [hfk] at hev
      rw [List.mem_filterMap] at hev
      obtain ⟨p, _, hp⟩ := hev
      by_cases hs : subsHas p.2 fk
      · rw [if_pos hs] at hp
        cases hp
        simp [evIsRowFor]
      · rw [if_neg hs] at hp
        cases hp

theorem filter_consolidatedEntryCalls {D V : Type} (subs : List (String × SubsM))
    (e : String × V) (k : String) :
    (consolidatedEntryCalls subs e : List (EventM D V)).filter (evIsRowFor k)
      = if e.1 = k then consolidatedEntryCalls subs e else [] := by
  rcases eq_or_ne e.1 k with h | h
  · rw [if_pos h]
    rw [List.filter_eq_self]
    intro ev hev
    rw [consolidatedEntryCalls_dkey subs e ev hev k, h]
    simp
  · rw [if_neg h]
    rw [List.filter_eq_nil_iff]
    intro ev hev
    rw [consolidatedEntryCalls_dkey subs e ev hev k]
    simp [h]

theorem flatMap_entryCalls_absent {D V : Type} (subs : List (String × SubsM))
    (m : List (String × V)) (k : String) (habs : k ∉ keysOf m) :
    m.flatMap (fun e => if e.1 = k then (consolidatedEntryCalls subs e : List (EventM D V)) else [])
      = [] := by
  induction m with
  | nil => rfl
  | cons e m ih =>
      simp only [keysOf, List.map_cons, List.mem_cons] at habs
      push_neg at habs
      rw [List.flatMap_cons, if_neg (Ne.symm habs.1), List.nil_append]
      exact ih habs.2

theorem flush_calls_for_key {D V : Type} (subs : List (String × SubsM))
    (m : List (String × V)) (k : String) (hnd : (keysOf m).Nodup) :
    (m.flatMap (consolidatedEntryCalls subs) : List (EventM D V)).filter (evIsRowFor k)
      = match mapGet m k with
        | none => []
        | some d => consolidatedEntryCalls subs (k, d) := by
  induction m with
  | nil => simp [mapGet_nil]
  | cons e m ih =>
      obtain ⟨ek, ev⟩ := e
      simp only [keysOf, List.map_cons, List.nodup_cons] at hnd
      simp only [List.flatMap_cons, List.filter_append]
      rw [filter_consolidatedEntryCalls]
      rcases eq_or_ne ek k with h | h
      · subst h
        have habs : ek ∉ keysOf m := hnd.1
        have hnil : (m.flatMap (consolidatedEntryCalls subs) : List (EventM D V)).filter
            (evIsRowFor ek) = [] := by
          rw [ih hnd.2]
          cases hg : mapGet m ek with
          | none => rfl
          | some d =>
              exfalso
              apply habs
              unfold mapGet at hg
              cases hf : List.find? (fun p => p.1 = ek) m with
              | none => rw [hf] at hg; simp at hg
              | some q =>
                  have := List.find?_some hf
                  have hqmem := List.mem_of_find?_eq_some hf
                  simp only [decide_eq_true_eq] at this
                  exact this ▸ List.mem_map_of_mem Prod.fst hqmem
        rw [if_pos rfl, hnil, List.append_nil, mapGet_cons, if_pos rfl]
      · rw [if_neg h, List.nil_append, mapGet_cons, if_neg h]
        exact ih hnd.2

/-! Claim theorems. -/

/-- Claim C10: decoding the debounce key produced by createDebounceKey
recovers the operation that produced it (the composition of
decriptDebounceKey with createDebounceKey is the first projection,
since operation names contain no dash), so each consolidated entry is
dispatched to the callback slot matching its operation: the flush's
calls for such an entry go to exactly the onAdd/onRemove/onUpdate
callbacks selected by opFnKey. -/
theorem debounce_key_roundtrip {D V : Type} (op : ChangeOp) (nodeId : String)
    (subs : List (String × SubsM)) (d : V) :
    decriptDebounceKey (createDebounceKey op nodeId) = opName op
    ∧ typeToFunctionKey (decriptDebounceKey (createDebounceKey op nodeId)) = some (opFnKey op)
    ∧ (consolidatedEntryCalls subs (createDebounceKey op nodeId, d) : List (EventM D V))
        = subs.filterMap
            (fun p => if subsHas p.2 (opFnKey op)
              then some (EventM.row (createDebounceKey op nodeId) p.2.key (opFnKey op) d)
              else none) := by
  refine ⟨decript_createDebounceKey op nodeId, ?_, ?_⟩
  · rw [decript_createDebounceKey, typeToFunctionKey_opName]
  · unfold consolidatedEntryCalls
    rw [decript_createDebounceKey, typeToFunctionKey_opName]

/-- Claim C8: a change of type child updates the in-memory result
state and notifies onData subscribers, but schedules no
onAdd/onRemove/onUpdate callback: push applies the change and returns
before consolidating it, leaving the debounced queue untouched. -/
theorem child_change_not_consolidated {D V : Type} (applyFn : D → ChangeM V → D)
    (f : ChangeListenerFactory D V) (c : ChangeM V) (h : c.type = CType.child) :
    push applyFn f c
      = ({ f with state := applyFn f.state c },
          onDataEvents { f with state := applyFn f.state c }) := by
  simp [push, applyChangeM, ctypeToOp, h]

/-- Witness for C8 at a concrete child change: the consolidated queue
stays empty and the single onData subscriber is notified. -/
theorem child_change_not_consolidated_witness :
    (⟨CType.child, ⟨(5 : Nat), some "1", "r"⟩⟩ : ChangeM Nat).type = CType.child
    ∧ push (fun (s : Nat) (_ : ChangeM Nat) => s + 1)
        ({ state := 0, status := StatusM.unknown, consolidatedCallbacks := [],
           subscriptions := [("s", ⟨"s", true, true, true, true⟩)] } :
          ChangeListenerFactory Nat Nat)
        ⟨CType.child, ⟨5, some "1", "r"⟩⟩
      = ({ state := 1, status := StatusM.unknown, consolidatedCallbacks := [],
           subscriptions := [("s", ⟨"s", true, true, true, true⟩)] },
          [EventM.data "s" 1 StatusM.unknown]) :=
  ⟨rfl,
    by
      rw [child_change_not_consolidated
        (fun (s : Nat) (_ : ChangeM Nat) => s + 1)
        ({ state := 0, status := StatusM.unknown, consolidatedCallbacks := [],
           subscriptions := [("s", ⟨"s", true, true, true, true⟩)] } :
          ChangeListenerFactory Nat Nat)
        ⟨CType.child, ⟨5, some "1", "r"⟩⟩ rfl]
      rfl⟩

/-- Counterexample to claim C7 as stated: onData is not deferred
through the debounce. Pushing an add change to a view with one onData
subscriber delivers an onData call synchronously, inside the change
application, before any timer fires. -/
theorem onData_synchronous_counterexample :
    (push (fun (s : Nat) (_ : ChangeM Nat) => s + 1)
        ({ state := 0, status := StatusM.unknown, consolidatedCallbacks := [],
           subscriptions := [("s", ⟨"s", true, false, false, false⟩)] } :
          ChangeListenerFactory Nat Nat)
        ⟨CType.add, ⟨5, some "1", "r"⟩⟩).2
      = [EventM.data "s" 1 StatusM.unknown]
    ∧ (push (fun (s : Nat) (_ : ChangeM Nat) => s + 1)
        ({ state := 0, status := StatusM.unknown, consolidatedCallbacks := [],
           subscriptions := [("s", ⟨"s", true, false, false, false⟩)] } :
          ChangeListenerFactory Nat Nat)
        ⟨CType.add, ⟨5, some "1", "r"⟩⟩).2 ≠ [] := by
  constructor
  · rfl
  · intro h
    simp [push, applyChangeM, ctypeToOp, onDataEvents] at h

/-- Claim C7 as amended: only the row callbacks (onAdd, onRemove,
onUpdate) are deferred through the timer-based debounce; onData is
delivered synchronously while a change is applied. Precisely: the
calls push makes synchronously are exactly the onData deliveries for
the updated state and none of them is a row callback, while the
debounced flush makes only row-callback calls. -/
theorem callback_deferral_amended {D V : Type} (applyFn : D → ChangeM V → D)
    (f : ChangeListenerFactory D V) (c : ChangeM V) :
    (push applyFn f c).2 = onDataEvents { f with state := applyFn f.state c }
    ∧ ((push applyFn f c).2.all (fun ev => !evIsRow ev)) = true
    ∧ ((handleConsolidated f).2.all (fun ev => evIsRow ev)) = true := by
  refine ⟨?_, ?_, ?_⟩
  · cases h : ctypeToOp c.type <;> simp [push, applyChangeM, h]
  · have hpush : (push applyFn f c).2 = onDataEvents { f with state := applyFn f.state c } := by
      cases h : ctypeToOp c.type <;> simp [push, applyChangeM, h]
    rw [hpush]
    rw [List.all_eq_true]
    intro ev hev
    unfold onDataEvents at hev
    rw [List.mem_filterMap] at hev
    obtain ⟨p, _, hp⟩ := hev
    by_cases hd : p.2.hasOnData
    · rw [if_pos hd] at hp
      cases hp
      rfl
    · rw [if_neg hd] at hp
      cases hp
  · rw [handleConsolidated_eq]
    rw [List.all_eq_true]
    intro ev hev
    simp only [List.mem_flatMap] at hev
    obtain ⟨e, _, hev⟩ := hev
    unfold consolidatedEntryCalls at hev
    cases hfk : typeToFunctionKey (decriptDebounceKey e.1) with
    | none => rw [hfk] at hev; simp at hev
    | some fk =>
        rw [hfk] at hev
        rw [List.mem_filterMap] at hev
        obtain ⟨p, _, hp⟩ := hev
        by_cases hs : subsHas p.2 fk
        · rw [if_pos hs] at hp
          cases hp
          rfl
        · rw [if_neg hs] at hp
          cases hp

/-- Counterexample to claim C3 as stated: the code's check is
case-sensitive on "Connection not found". A teardown Error whose
message is the lower-case "connection not found" does contain the
claimed phrase, yet destroy re-raises it instead of swallowing it. -/
theorem destroy_case_sensitivity_counterexample :
    strIncludes "connection not found" "connection not found" = true
    ∧ (destroy
        ({ state := 0, status := StatusM.unknown, consolidatedCallbacks := [],
           subscriptions := [] } : ChangeListenerFactory Nat Nat)
        (some ⟨true, "connection not found"⟩)).2
      = some ⟨true, "connection not found"⟩ := by
  constructor
  · decide
  · decide

/-- Claim C3 as amended: during cleanup, destroy returns normally
exactly when the wrapped library's teardown either returned normally
or raised an Error instance whose message contains the case-sensitive
string "Connection not found"; every other thrown value is re-raised
unchanged. -/
theorem destroy_some {D V : Type} (f : ChangeListenerFactory D V) (e : JsError) :
    destroy f (some e)
      = ({ f with consolidatedCallbacks := [], subscriptions := [] },
          if e.isError && strIncludes e.message "Connection not found"
          then none
          else some e) := by
  unfold destroy
  by_cases h : (e.isError && strIncludes e.message "Connection not found") = true <;> simp [h]

theorem destroy_swallows_connection_not_found {D V : Type}
    (f : ChangeListenerFactory D V) (e : JsError) :
    ((destroy f (some e)).2 = none
        ↔ (e.isError = true ∧ strIncludes e.message "Connection not found" = true))
    ∧ (destroy f none).2 = none
    ∧ ((destroy f (some e)).2 = none ∨ (destroy f (some e)).2 = some e) := by
  refine ⟨?_, rfl, ?_⟩
  · rw [destroy_some]
    by_cases hb : (e.isError && strIncludes e.message "Connection not found") = true
    · rw [if_pos hb]
      rw [Bool.and_eq_true] at hb
      simp [hb.1, hb.2]
    · rw [if_neg hb]
      constructor
      · intro hc
        simp at hc
      · intro hc
        exact absurd ((Bool.and_eq_true _ _).mpr ⟨hc.1, hc.2⟩) hb
  · rw [destroy_some]
    by_cases hb : (e.isError && strIncludes e.message "Connection not found") = true
    · rw [if_pos hb]
      left
      rfl
    · rw [if_neg hb]
      right
      rfl

theorem foldl_ctor_step_fst {V : Type}
    (applyFn : Option (List V) → ChangeM V → Option (List V))
    (fetched : List (NodeM V))
    (acc : ChangeListenerFactory (Option (List V)) V × List (EventM (Option (List V)) V)) :
    (fetched.foldl
        (fun acc node =>
          let r := applyChangeM applyFn acc.1 { type := CType.add, node := node }
          (r.1, acc.2 ++ r.2)) acc).1
      = { acc.1 with
          state := fetched.foldl (fun s n => applyFn s ⟨CType.add, n⟩) acc.1.state } := by
  induction fetched generalizing acc with
  | nil => rfl
  | cons n ns ih =>
      rw [List.foldl_cons, ih, List.foldl_cons]
      rfl

theorem ctor_fst {V : Type} (applyFn : Option (List V) → ChangeM V → Option (List V))
    (fmt : FormatM) (qc : QCompleteM) (subs : SubsM) (fetched : List (NodeM V)) :
    (ctor applyFn fmt qc subs fetched).1
      = { state := fetched.foldl (fun s n => applyFn s ⟨CType.add, n⟩)
            (if fmt.singular then none else some [])
          status := if qc = QCompleteM.literal then StatusM.complete else StatusM.unknown
          consolidatedCallbacks := []
          subscriptions := mapSet [] subs.key subs } := by
  unfold ctor
  rw [foldl_ctor_step_fst]

/-- Claim C9: immediately after the view is constructed, its status is
complete exactly when the queryComplete argument is the literal true
(unknown otherwise, until the promise resolves, which is outside this
snapshot), and its state is the fold of an add change per initially
fetched node over the empty result (undefined for singular format, the
empty list otherwise); and before any view exists the atom reads as
the empty list with unknown status. -/
theorem ctor_initial_snapshot {V : Type}
    (applyFn : Option (List V) → ChangeM V → Option (List V))
    (fmt : FormatM) (qc : QCompleteM) (subs : SubsM) (fetched : List (NodeM V)) :
    ((ctor applyFn fmt qc subs fetched).1.status = StatusM.complete ↔ qc = QCompleteM.literal)
    ∧ (ctor applyFn fmt qc subs fetched).1.state
        = fetched.foldl (fun s n => applyFn s ⟨CType.add, n⟩)
            (if fmt.singular then none else some [])
    ∧ stateAtomRead (V := V) none = ([], StatusM.unknown) := by
  refine ⟨?_, ?_, rfl⟩
  · rw [ctor_fst]
    cases qc <;> simp
  · rw [ctor_fst]

/-! Invariant machinery for the view cache. -/

theorem mapSet_ne_nil {α : Type} (m : List (String × α)) (k : String) (v : α) :
    mapSet m k v ≠ [] := by
  cases m with
  | nil => simp [mapSet]
  | cons p rest =>
      obtain ⟨pk, pv⟩ := p
      simp only [mapSet]
      split <;> simp

theorem all_mapSet {α : Type} (m : List (String × α)) (k : String) (v : α)
    (P : String × α → Bool) (hm : m.all P = true) (hv : P (k, v) = true) :
    (mapSet m k v).all P = true := by
  induction m with
  | nil => simp [mapSet, hv]
  | cons p rest ih =>
      obtain ⟨pk, pv⟩ := p
      rw [List.all_cons, Bool.and_eq_true] at hm
      simp only [mapSet]
      split
      · rw [List.all_cons, Bool.and_eq_true]
        exact ⟨hv, hm.2⟩
      · rw [List.all_cons, Bool.and_eq_true]
        exact ⟨hm.1, ih hm.2⟩

theorem all_mapDelete {α : Type} (m : List (String × α)) (k : String)
    (P : String × α → Bool) (hm : m.all P = true) : (mapDelete m k).all P = true := by
  rw [List.all_eq_true] at hm ⊢
  intro x hx
  exact hm x (List.mem_of_mem_filter hx)

/-- The property every cached view keeps: a nonempty subscription
map. -/
def viewAlive {V : Type} (p : String × ChangeListenerFactory (Option (List V)) V) : Bool :=
  !p.2.subscriptions.isEmpty

theorem stepAdapter_preserves_alive {V : Type}
    (applyFn : Option (List V) → ChangeM V → Option (List V))
    (cache : List (String × ChangeListenerFactory (Option (List V)) V)) (op : AdapterOp V)
    (h : cache.all viewAlive = true) :
    (stepAdapter applyFn cache op).all viewAlive = true := by
  cases op with
  | acquire qk subs fmt qc fetched =>
      unfold stepAdapter getMaterializedFactoryView
      cases hg : mapGet cache qk with
      | some view =>
          simp only [hg]
          apply all_mapSet _ _ _ _ h
          simp [viewAlive, addSubscriptions, List.isEmpty_iff, mapSet_ne_nil]
      | none =>
          simp only [hg]
          apply all_mapSet _ _ _ _ h
          simp only [viewAlive]
          rw [ctor_fst]
          simp [List.isEmpty_iff, mapSet_ne_nil]
  | cleanup qk sk =>
      unfold stepAdapter cleanupMaterializedFactoryView
      cases hg : mapGet cache qk with
      | none => simpa [hg] using h
      | some view =>
          simp only [hg]
          by_cases hs : hasSubscribers (removeSubscriptions view sk) = true
          · rw [if_pos hs]
            apply all_mapSet _ _ _ _ h
            simpa [viewAlive, hasSubscribers] using hs
          · rw [if_neg hs]
            exact all_mapDelete _ _ _ h

theorem destroy_none {D V : Type} (f : ChangeListenerFactory D V) :
    destroy f none
      = ({ f with consolidatedCallbacks := [], subscriptions := [] }, none) := rfl

theorem runAdapter_all_alive {V : Type}
    (applyFn : Option (List V) → ChangeM V → Option (List V)) (ops : List (AdapterOp V)) :
    (runAdapter applyFn ops).all viewAlive = true := by
  unfold runAdapter
  have h : ∀ (ops2 : List (AdapterOp V))
      (cache : List (String × ChangeListenerFactory (Option (List V)) V)),
      cache.all viewAlive = true →
      (ops2.foldl (stepAdapter applyFn) cache).all viewAlive = true := by
    intro ops2
    induction ops2 with
    | nil =>
        intro c hc
        simpa using hc
    | cons op rest ih =>
        intro c hc
        rw [List.foldl_cons]
        exact ih _ (stepAdapter_preserves_alive applyFn c op hc)
  exact h ops [] rfl

theorem cleanup_found {V : Type}
    (cache : List (String × ChangeListenerFactory (Option (List V)) V))
    (qk sk : String) (v : ChangeListenerFactory (Option (List V)) V)
    (hq : mapGet cache qk = some v) :
    cleanupMaterializedFactoryView cache qk sk none
      = (if hasSubscribers (removeSubscriptions v sk)
         then (mapSet cache qk (removeSubscriptions v sk), false, none)
         else (mapDelete cache qk, true, none)) := by
  unfold cleanupMaterializedFactoryView
  rw [hq]
  by_cases hs : hasSubscribers (removeSubscriptions v sk) = true <;>
    simp [hs, destroy_none]

/-- Claim C2: subscriber callbacks are reference-counted by the
caller-supplied key. Cleanup of a cached view removes the given
subscription key; the view is destroyed and evicted from the cache
exactly when that removal leaves its subscription map empty, and it
stays cached (with the remaining subscribers) otherwise; moreover over
every sequence of view acquisitions and cleanups from the empty cache,
each cached view keeps at least one registered subscription key. The
wrapped teardown is taken to return normally here. -/
theorem refcounted_subscriber_cleanup {V : Type}
    (applyFn : Option (List V) → ChangeM V → Option (List V))
    (cache : List (String × ChangeListenerFactory (Option (List V)) V))
    (qk sk : String) (v : ChangeListenerFactory (Option (List V)) V)
    (hq : mapGet cache qk = some v) (ops : List (AdapterOp V)) :
    ((cleanupMaterializedFactoryView cache qk sk none).2.1 = true
        ↔ (removeSubscriptions v sk).subscriptions = [])
    ∧ mapGet (cleanupMaterializedFactoryView cache qk sk none).1 qk
        = (if (removeSubscriptions v sk).subscriptions.isEmpty
           then none
           else some (removeSubscriptions v sk))
    ∧ (runAdapter applyFn ops).all viewAlive = true := by
  refine ⟨?_, ?_, runAdapter_all_alive applyFn ops⟩
  · rw [cleanup_found cache qk sk v hq]
    by_cases hs : hasSubscribers (removeSubscriptions v sk) = true
    · rw [if_pos hs]
      have hne : (removeSubscriptions v sk).subscriptions ≠ [] := by
        intro hnil
        unfold hasSubscribers at hs
        rw [hnil] at hs
        simp at hs
      constructor
      · intro hfalse
        exact absurd hfalse (by simp)
      · intro hempty
        exact absurd hempty hne
    · rw [if_neg hs]
      have hemp : (removeSubscriptions v sk).subscriptions.isEmpty = true := by
        cases hb : (removeSubscriptions v sk).subscriptions.isEmpty
        · exact absurd (by unfold hasSubscribers; rw [hb]; rfl) hs
        · rfl
      constructor
      · intro _
        exact List.isEmpty_iff.mp hemp
      · intro _
        rfl
  · rw [cleanup_found cache qk sk v hq]
    by_cases hs : hasSubscribers (removeSubscriptions v sk) = true
    · rw [if_pos hs]
      have hempf : (removeSubscriptions v sk).subscriptions.isEmpty = false := by
        cases hb : (removeSubscriptions v sk).subscriptions.isEmpty
        · rfl
        · exfalso
          unfold hasSubscribers at hs
          rw [hb] at hs
          simp at hs
      rw [mapGet_mapSet, if_pos rfl, hempf]
      simp
    · rw [if_neg hs]
      have hemp : (removeSubscriptions v sk).subscriptions.isEmpty = true := by
        cases hb : (removeSubscriptions v sk).subscriptions.isEmpty
        · exact absurd (by unfold hasSubscribers; rw [hb]; rfl) hs
        · rfl
      rw [mapGet_mapDelete, if_pos rfl, hemp]
      simp

/-- Witness for C2 at a concrete cache: removing the only subscriber
destroys the view. -/
theorem refcounted_subscriber_cleanup_witness :
    mapGet
        [("q", ({ state := some [], status := StatusM.complete,
                  consolidatedCallbacks := [],
                  subscriptions := [("k1", ⟨"k1", true, false, false, false⟩)] } :
            ChangeListenerFactory (Option (List Nat)) Nat))] "q"
      = some { state := some [], status := StatusM.complete,
               consolidatedCallbacks := [],
               subscriptions := [("k1", ⟨"k1", true, false, false, false⟩)] }
    ∧ ((cleanupMaterializedFactoryView
          [("q", ({ state := some [], status := StatusM.complete,
                    consolidatedCallbacks := [],
                    subscriptions := [("k1", ⟨"k1", true, false, false, false⟩)] } :
              ChangeListenerFactory (Option (List Nat)) Nat))] "q" "k1" none).2.1 = true
        ↔ (removeSubscriptions
            ({ state := some [], status := StatusM.complete,
               consolidatedCallbacks := [],
               subscriptions := [("k1", ⟨"k1", true, false, false, false⟩)] } :
              ChangeListenerFactory (Option (List Nat)) Nat) "k1").subscriptions = []) :=
  ⟨by decide,
    (refcounted_subscriber_cleanup (fun s _ => s)
      [("q", { state := some [], status := StatusM.complete,
               consolidatedCallbacks := [],
               subscriptions := [("k1", ⟨"k1", true, false, false, false⟩)] })]
      "q" "k1"
      { state := some [], status := StatusM.complete,
        consolidatedCallbacks := [],
        subscriptions := [("k1", ⟨"k1", true, false, false, false⟩)] }
      (by decide) []).1⟩

/-- Counterexample to claim C4 as stated: zeroQueryAtom is memoized on
the query-identity key alone, so a second invocation with the same
query but a different subscription key returns the same memoized atom
while skipping the body entirely: the second caller's callbacks are
never registered on the shared view (key "k2" is absent from the
view's subscription map). -/
theorem zeroQueryAtom_second_caller_not_registered :
    (zeroQueryAtom (fun (s : Option (List Nat)) (_ : ChangeM Nat) => s)
        (zeroQueryAtom (fun (s : Option (List Nat)) (_ : ChangeM Nat) => s)
          (emptyAdapterState Nat) "q" ⟨"k1", false, false, false, false⟩
          ⟨false⟩ QCompleteM.literal []).2
        "q" ⟨"k2", false, false, false, false⟩ ⟨false⟩ QCompleteM.literal []).1
      = (zeroQueryAtom (fun (s : Option (List Nat)) (_ : ChangeM Nat) => s)
          (emptyAdapterState Nat) "q" ⟨"k1", false, false, false, false⟩
          ⟨false⟩ QCompleteM.literal []).1
    ∧ ((mapGet
          (zeroQueryAtom (fun (s : Option (List Nat)) (_ : ChangeM Nat) => s)
            (zeroQueryAtom (fun (s : Option (List Nat)) (_ : ChangeM Nat) => s)
              (emptyAdapterState Nat) "q" ⟨"k1", false, false, false, false⟩
              ⟨false⟩ QCompleteM.literal []).2
            "q" ⟨"k2", false, false, false, false⟩ ⟨false⟩ QCompleteM.literal []).2.viewsMaterialized
          "q").map (fun v => mapGet v.subscriptions "k2"))
      = some none := by
  constructor
  · decide
  · decide

/-- Claim C4 as amended: views are memoized per query-identity key.
When getMaterializedFactoryView finds a cached view for the key it
returns that same view, with the caller's subscriptions registered on
it under the caller-supplied key, instead of materializing a second
subscription; when zeroQueryAtom finds a memo entry for the key it
returns the same memoized atom record with the adapter state
untouched, which also means a second caller's subscriptions are not
registered by the memoized path. -/
theorem memoized_view_and_atom_reuse {V : Type}
    (applyFn : Option (List V) → ChangeM V → Option (List V))
    (cache : List (String × ChangeListenerFactory (Option (List V)) V))
    (qk : String) (subs : SubsM) (fmt : FormatM) (qc : QCompleteM)
    (fetched : List (NodeM V)) (v : ChangeListenerFactory (Option (List V)) V)
    (hv : mapGet cache qk = some v)
    (st : AdapterState V) (subs2 : SubsM) (r : ZeroQueryAtomResult)
    (hr : mapGet st.memoCache qk = some r) :
    (getMaterializedFactoryView applyFn cache qk subs fmt qc fetched).1
        = addSubscriptions v subs
    ∧ (getMaterializedFactoryView applyFn cache qk subs fmt qc fetched).2.1
        = mapSet cache qk (addSubscriptions v subs)
    ∧ mapGet (addSubscriptions v subs).subscriptions subs.key = some subs
    ∧ zeroQueryAtom applyFn st qk subs2 fmt qc fetched = (r, st) := by
  refine ⟨?_, ?_, ?_, ?_⟩
  · simp [getMaterializedFactoryView, hv]
  · simp [getMaterializedFactoryView, hv]
  · simp [addSubscriptions, mapGet_mapSet]
  · simp [zeroQueryAtom, hr]

/-- Witness for the amended C4 at a concrete cache and memo entry. -/
theorem memoized_view_and_atom_reuse_witness :
    mapGet
        [("q", ({ state := some [], status := StatusM.complete,
                  consolidatedCallbacks := [],
                  subscriptions := [("k1", ⟨"k1", true, false, false, false⟩)] } :
            ChangeListenerFactory (Option (List Nat)) Nat))] "q"
      = some { state := some [], status := StatusM.complete,
               consolidatedCallbacks := [],
               subscriptions := [("k1", ⟨"k1", true, false, false, false⟩)] }
    ∧ mapGet
        ({ viewsMaterialized := [], memoCache := [("q", ⟨0, "q", "k1"⟩)], nextAtomId := 1 } :
          AdapterState Nat).memoCache "q" = some ⟨0, "q", "k1"⟩
    ∧ zeroQueryAtom (fun (s : Option (List Nat)) (_ : ChangeM Nat) => s)
        { viewsMaterialized := [], memoCache := [("q", ⟨0, "q", "k1"⟩)], nextAtomId := 1 }
        "q" ⟨"k2", false, false, false, false⟩ ⟨false⟩ QCompleteM.literal []
      = (⟨0, "q", "k1"⟩,
          { viewsMaterialized := [],
            memoCache := [("q", ⟨0, "q", "k1"⟩)],
            nextAtomId := 1 }) :=
  ⟨by decide, by decide,
    (memoized_view_and_atom_reuse (fun s _ => s)
      [("q", { state := some [], status := StatusM.complete,
               consolidatedCallbacks := [],
               subscriptions := [("k1", ⟨"k1", true, false, false, false⟩)] })]
      "q" ⟨"k2", false, false, false, false⟩ ⟨false⟩ QCompleteM.literal []
      { state := some [], status := StatusM.complete,
        consolidatedCallbacks := [],
        subscriptions := [("k1", ⟨"k1", true, false, false, false⟩)] }
      (by decide)
      { viewsMaterialized := [], memoCache := [("q", ⟨0, "q", "k1"⟩)], nextAtomId := 1 }
      ⟨"k2", false, false, false, false⟩ ⟨0, "q", "k1"⟩ (by decide)).2.2.2⟩

/-- Claim C5 is a bug in the code: the effect in useZeroQueryAtom
returns no destructor, so unmounting a component runs nothing and its
subscription is never removed from the materialized view (the code's
own comment says the previous query is cleaned up when the component
unmounts). In the model: unmount leaves the adapter state untouched,
and after mounting a component whose query key never changed, its
subscription key is still registered on the cached view after
unmount. -/
theorem unmount_does_not_clean_up :
    (∀ (st : AdapterState Nat), unmountComponent st = st)
    ∧ ((mapGet
          (unmountComponent
            (zeroQueryAtom (fun (s : Option (List Nat)) (_ : ChangeM Nat) => s)
              (emptyAdapterState Nat) "q" ⟨"k1", false, false, false, false⟩
              ⟨false⟩ QCompleteM.literal []).2).viewsMaterialized
          "q").map (fun v => mapGet v.subscriptions "k1"))
      = some (some ⟨"k1", true, false, false, false⟩) := by
  constructor
  · intro st
    rfl
  · decide

/-- Claim C6: when the query identity key changes between renders, the
effect body calls the cleanup closure with the previous key and then
records the new key as current; that closure removes the component's
captured subscription key from the previous view via
cleanupMaterializedFactoryView, destroying the view if no subscribers
remain. -/
theorem querykey_change_cleans_previous {V : Type} (r : ZeroQueryAtomResult)
    (prevKey newKey : String) (st : AdapterState V) (h : prevKey ≠ newKey) :
    useZeroEffectBody r prevKey newKey st
      = (newKey, (zeroQueryAtomCleanup r prevKey st none).1)
    ∧ (zeroQueryAtomCleanup r prevKey st none).1.viewsMaterialized
        = (cleanupMaterializedFactoryView st.viewsMaterialized prevKey
            r.cleanupSubKey none).1 := by
  refine ⟨?_, rfl⟩
  simp [useZeroEffectBody, h]

/-- Witness for C6: a key change from q to q2 cleans up the previous
view (leaving the cache empty when the component was its last
subscriber) and records q2 in the ref. -/
theorem querykey_change_cleans_previous_witness :
    ("q" : String) ≠ "q2"
    ∧ useZeroEffectBody (V := Nat) ⟨0, "q2", "k1"⟩ "q" "q2"
        { viewsMaterialized :=
            [("q", { state := some [], status := StatusM.complete,
                     consolidatedCallbacks := [],
                     subscriptions := [("k1", ⟨"k1", true, false, false, false⟩)] })],
          memoCache := [], nextAtomId := 1 }
      = ("q2",
          { viewsMaterialized := [], memoCache := [], nextAtomId := 1 }) :=
  ⟨by decide,
    by
      rw [(querykey_change_cleans_previous (V := Nat) ⟨0, "q2", "k1"⟩ "q" "q2"
        { viewsMaterialized :=
            [("q", { state := some [], status := StatusM.complete,
                     consolidatedCallbacks := [],
                     subscriptions := [("k1", ⟨"k1", true, false, false, false⟩)] })],
          memoCache := [], nextAtomId := 1 } (by decide)).1]
      decide⟩

/-- Claim C1: row-callback delivery is debounced per (operation, row
id) key. Over a window of pushes followed by the trailing flush,
starting from an empty consolidated queue: for any key that was
written during the window, the flush makes exactly one call per
registered subscription that has the matching callback, carrying the
row data of the most recent change with that key. -/
theorem debounced_row_callbacks_once_per_key {D V : Type}
    (applyFn : D → ChangeM V → D) (f0 : ChangeListenerFactory D V)
    (w : List (ChangeM V)) (op : ChangeOp) (nodeId : String) (d : V)
    (hfresh : f0.consolidatedCallbacks = [])
    (hlast : lastVal (windowWrites w) (createDebounceKey op nodeId) = some d) :
    ((handleConsolidated (pushWindow applyFn f0 w)).2.filter
        (evIsRowFor (createDebounceKey op nodeId)))
      = f0.subscriptions.filterMap
          (fun p => if subsHas p.2 (opFnKey op)
            then some (EventM.row (createDebounceKey op nodeId) p.2.key (opFnKey op) d)
            else none)
    ∧ (handleConsolidated (pushWindow applyFn f0 w)).1.consolidatedCallbacks = [] := by
  constructor
  · have hsubs := pushWindow_subscriptions applyFn f0 w
    have hcons : (pushWindow applyFn f0 w).consolidatedCallbacks
        = (windowWrites w).foldl (fun m p => mapSet m p.1 p.2) [] := by
      rw [pushWindow_consolidated, hfresh]
    have hflush : (handleConsolidated (pushWindow applyFn f0 w)).2
        = (pushWindow applyFn f0 w).consolidatedCallbacks.flatMap
            (consolidatedEntryCalls (pushWindow applyFn f0 w).subscriptions) := by
      rw [handleConsolidated_eq]
    rw [hflush, hcons, hsubs]
    have hnd : (keysOf ((windowWrites w).foldl
        (fun m p => mapSet m p.1 p.2) [])).Nodup :=
      keysOf_foldl_mapSet_nodup _ [] (by simp [keysOf])
    rw [flush_calls_for_key f0.subscriptions _ (createDebounceKey op nodeId) hnd]
    rw [mapGet_foldl_mapSet, hlast, mapGet_nil]
    simp only [Option.or_none]
    unfold consolidatedEntryCalls
    simp only []
    rw [decript_createDebounceKey, typeToFunctionKey_opName]
  · rfl

/-- Witness for C1: two add changes for row id 1 within one window; the
flush calls the single subscription's onAdd exactly once, with the
latest row value 7. -/
theorem debounced_row_callbacks_once_per_key_witness :
    ({ state := 0, status := StatusM.unknown, consolidatedCallbacks := [],
       subscriptions := [("s", ⟨"s", true, true, false, false⟩)] } :
        ChangeListenerFactory Nat Nat).consolidatedCallbacks = []
    ∧ lastVal
        (windowWrites
          [(⟨CType.add, ⟨5, some "1", "r"⟩⟩ : ChangeM Nat),
            ⟨CType.add, ⟨7, some "1", "r"⟩⟩])
        (createDebounceKey ChangeOp.add "1") = some 7
    ∧ ((handleConsolidated
          (pushWindow (fun (s : Nat) (_ : ChangeM Nat) => s + 1)
            { state := 0, status := StatusM.unknown, consolidatedCallbacks := [],
              subscriptions := [("s", ⟨"s", true, true, false, false⟩)] }
            [⟨CType.add, ⟨5, some "1", "r"⟩⟩,
              ⟨CType.add, ⟨7, some "1", "r"⟩⟩])).2.filter
          (evIsRowFor (createDebounceKey ChangeOp.add "1")))
        = ([("s", ⟨"s", true, true, false, false⟩)] : List (String × SubsM)).filterMap
            (fun p => if subsHas p.2 (opFnKey ChangeOp.add)
              then some (EventM.row (createDebounceKey ChangeOp.add "1") p.2.key
                (opFnKey ChangeOp.add) (7 : Nat))
              else none) :=
  ⟨rfl, by decide,
    (debounced_row_callbacks_once_per_key
      (fun (s : Nat) (_ : ChangeM Nat) => s + 1)
      { state := 0, status := StatusM.unknown, consolidatedCallbacks := [],
        subscriptions := [("s", ⟨"s", true, true, false, false⟩)] }
      [⟨CType.add, ⟨5, some "1", "r"⟩⟩, ⟨CType.add, ⟨7, some "1", "r"⟩⟩]
      ChangeOp.add "1" 7 rfl (by decide)).1⟩
